import Mathlib

/-!
Verification of the Second-Brain frontend streaming subsystem.

The frontend consumes an in-progress assistant response over two transports:

* a pull transport — a chunked HTTP response body read in a loop, with each
  chunk split on newline and each line classified by its leading tag
  (`frontend/app/page.tsx`, inline `ChatInterface.sendMessage`, and the
  legacy pair `streamMessage` / `sendMessage` in `frontend/lib/api.ts`);
* a push transport — a WebSocket whose structured status messages are handled
  by `ws.onmessage` in `frontend/components/ChatInterface.tsx`.

JavaScript strings are embedded as `List Char`, and the JS string primitives
used by the source (`split("\n")`, `trim()`, `startsWith`, `substring`/
`replace`-of-a-leading-tag) are given as executable functions on `List Char`.
Stateful handlers become explicit state-passing functions.
-/

/-- Whitespace test backing the embedding of JS `trim()` (the ASCII
whitespace characters: space, tab, newline, carriage return, vertical tab,
form feed). -/
def isWs (c : Char) : Bool :=
  c = ' ' || c = '\t' || c = '\n' || c = '\r' || c = '\x0b' || c = '\x0c'

/-- JS `s.trim()`: drop leading and trailing whitespace. -/
def trimChars (l : List Char) : List Char :=
  ((l.dropWhile isWs).reverse.dropWhile isWs).reverse

/-- JS `s.split("\n")`: split on newline, keeping empty pieces (so a
trailing newline yields a final empty piece, and `"".split` yields one
empty piece). -/
def splitOnNl : List Char → List (List Char)
  | [] => [[]]
  | c :: rest =>
    if c = '\n' then [] :: splitOnNl rest
    else match splitOnNl rest with
      | [] => [[c]]
      | h :: t => (c :: h) :: t

/-- JS `s.startsWith(p)`: the first list is a leading run of the second. -/
def hasLead : List Char → List Char → Bool
  | [], _ => true
  | _ :: _, [] => false
  | p :: ps, c :: cs => p == c && hasLead ps cs

/-- The tag `"THINKING:"` matched by the inline read loop in page.tsx. -/
def thinkTag : List Char := ['T','H','I','N','K','I','N','G',':']

/-- The tag `"TOKEN:"` matched by the inline read loop in page.tsx. -/
def tokenTag : List Char := ['T','O','K','E','N',':']

/-- The tag `"TOKEN: "` (with trailing space) matched by the legacy
`sendMessage` in api.ts. -/
def tokenSpaceTag : List Char := ['T','O','K','E','N',':',' ']

/-- Transport-agnostic events (spec §3), as produced by the classification
branches of the source: `THINKING:` lines, `TOKEN:` lines, push `DONE`
messages (optionally carrying a final text) and push `ERROR` messages. -/
inductive Event where
  | thinking (label : List Char)
  | token (text : List Char)
  | done (finalText : Option (List Char))
  | errorEvent (message : List Char)
  deriving DecidableEq

/-- Classification of one line by the inline read loop of
`ChatInterface.sendMessage` in page.tsx: an empty line is skipped
(`if (!line) continue`); a line starting with `"THINKING:"` carries the
trimmed remainder as a thinking label; otherwise a line starting with
`"TOKEN:"` carries the untrimmed remainder (`line.replace("TOKEN:", "")`,
which under the `startsWith` guard removes exactly the leading tag); any
other line is ignored. -/
def classifyLine (line : List Char) : Option Event :=
  if line = [] then none
  else if hasLead thinkTag line then some (.thinking (trimChars (line.drop 9)))
  else if hasLead tokenTag line then some (.token (line.drop 6))
  else none

/-- Events produced from one chunk by the page.tsx read loop: the chunk is
split on newline in isolation (`chunk.split("\n")`) and each line is
classified; there is no carry-over of an unterminated remainder. -/
def chunkEvents (chunk : List Char) : List Event :=
  (splitOnNl chunk).filterMap classifyLine

/-- Events produced by the page.tsx read loop over a whole chunk sequence:
per-chunk splitting, concatenated in arrival order. -/
def pageEvents (chunks : List (List Char)) : List Event :=
  (chunks.map chunkEvents).flatten

/-- The state mutated by the page.tsx read loop: the `brainState` header
string and the accumulated `fullResponse` (which is also the text of the
placeholder assistant message, updated on every token). -/
structure PageState where
  brainState : List Char
  fullResponse : List Char
  deriving DecidableEq

/-- State on entering the read loop: `setBrainState("Thinking...")` has run
and the assistant placeholder text is empty. -/
def initPage : PageState := ⟨"Thinking...".toList, []⟩

/-- One line of the page.tsx read loop body: skip empty lines; a
`"THINKING:"` line sets `brainState` to the trimmed remainder; a
`"TOKEN:"` line sets `brainState` to `"Responding..."` and appends the
untrimmed remainder to `fullResponse`; other lines do nothing. -/
def pageLineStep (s : PageState) (line : List Char) : PageState :=
  if line = [] then s
  else if hasLead thinkTag line then { s with brainState := trimChars (line.drop 9) }
  else if hasLead tokenTag line then
    ⟨"Responding...".toList, s.fullResponse ++ line.drop 6⟩
  else s

/-- One chunk of the page.tsx read loop: split the chunk on newline in
isolation and run the line body over each resulting line. -/
def pageChunkStep (s : PageState) (chunk : List Char) : PageState :=
  (splitOnNl chunk).foldl pageLineStep s

/-- The page.tsx read loop over all chunks, before the post-loop
`setBrainState("Idle")`. -/
def pageLoop (chunks : List (List Char)) : PageState :=
  chunks.foldl pageChunkStep initPage

/-- A full clean run of `ChatInterface.sendMessage`'s streaming body in
page.tsx: the read loop over every chunk, then — once `read()` reports the
stream done — `setBrainState("Idle")`. The accumulated text is not touched
by the end-of-stream step. -/
def pageRun (chunks : List (List Char)) : PageState :=
  { pageLoop chunks with brainState := "Idle".toList }

/-- `streamMessage` in api.ts: per chunk, split on newline and yield each
line trimmed, skipping lines whose trim is empty
(`if (line.trim()) yield line.trim()`). -/
def yieldedLines (chunks : List (List Char)) : List (List Char) :=
  (chunks.map (fun c => (splitOnNl c).filterMap (fun l =>
    if trimChars l = [] then none else some (trimChars l)))).flatten

/-- The accumulation step of the legacy `sendMessage` in api.ts: a yielded
chunk starting with `"TOKEN: "` contributes `chunk.substring(7)`; anything
else contributes nothing. -/
def sendStep (acc l : List Char) : List Char :=
  if hasLead tokenSpaceTag l then acc ++ l.drop 7 else acc

/-- The legacy `sendMessage` in api.ts: fold the accumulation step over all
yielded (trimmed) lines; the result is the returned `answer`. -/
def sendMessageAnswer (chunks : List (List Char)) : List Char :=
  (yieldedLines chunks).foldl sendStep []

/-- Message sender tag of the chat message list. -/
inductive Sender where
  | user
  | ai
  deriving DecidableEq

/-- One chat bubble in the `messages` state. -/
structure ChatMsg where
  sender : Sender
  text : List Char
  deriving DecidableEq

/-- A parsed inbound WebSocket message: `{status, message?, response?}`.
Absent fields are `none`. -/
structure PushMsg where
  status : List Char
  message : Option (List Char)
  response : Option (List Char)
  deriving DecidableEq

/-- The state mutated by `ws.onmessage` in components/ChatInterface.tsx:
the `brainState` header string and the chat message list. -/
structure WsState where
  brainState : List Char
  messages : List ChatMsg
  deriving DecidableEq

/-- Initial state of the push-transport component: `useState("Idle")` and an
empty message list. -/
def initWs : WsState := ⟨"Idle".toList, []⟩

/-- JS truthiness of an optional string field: an absent field and the empty
string are both falsy. -/
def truthy : Option (List Char) → Bool
  | none => false
  | some l => !l.isEmpty

/-- JS rendering of an optional string where the code reads the raw field:
an absent field reads as `undefined`, which a template literal renders as
the string `"undefined"`. -/
def renderOpt : Option (List Char) → List Char
  | some m => m
  | none => "undefined".toList

/-- The `ws.onmessage` handler of components/ChatInterface.tsx:
`status === "THINKING"` sets `brainState` to `"Thinking..."`;
`status === "DONE"` sets `brainState` to `"Idle"` and, if `data.response`
is truthy, appends an assistant bubble whose text is exactly
`data.response`; `status === "ERROR"` sets `brainState` to `"Error"` and
appends an assistant bubble `"Error: " + data.message`; any other status
leaves the state unchanged. The handler never consults the current state
beyond appending to the message list. -/
def wsOnMessage (d : PushMsg) (s : WsState) : WsState :=
  if d.status = "THINKING".toList then
    { s with brainState := "Thinking...".toList }
  else if d.status = "DONE".toList then
    if truthy d.response then
      ⟨"Idle".toList, s.messages ++ [⟨Sender.ai, renderOpt d.response⟩]⟩
    else
      { s with brainState := "Idle".toList }
  else if d.status = "ERROR".toList then
    ⟨"Error".toList, s.messages ++ [⟨Sender.ai, "Error: ".toList ++ renderOpt d.message⟩]⟩
  else s

/-- The event classification implicit in the branch structure of
`ws.onmessage`: `THINKING` carries the fixed label the code displays;
`DONE` carries a final text exactly when `data.response` is truthy (so an
absent field and the empty string both classify as carrying no final
text); `ERROR` carries the `message` field; other statuses classify to
nothing. -/
def classifyPush (d : PushMsg) : Option Event :=
  if d.status = "THINKING".toList then some (.thinking "Thinking...".toList)
  else if d.status = "DONE".toList then
    some (.done (if truthy d.response then some (renderOpt d.response) else none))
  else if d.status = "ERROR".toList then
    some (.errorEvent (renderOpt d.message))
  else none

/-- The reduction of one classified event over the push-transport state,
matching the effects of the corresponding `ws.onmessage` branch. The push
transport never produces token events, so a token is a no-op here. -/
def applyPush (e : Event) (s : WsState) : WsState :=
  match e with
  | .thinking _ => { s with brainState := "Thinking...".toList }
  | .token _ => s
  | .done (some r) => ⟨"Idle".toList, s.messages ++ [⟨Sender.ai, r⟩]⟩
  | .done none => { s with brainState := "Idle".toList }
  | .errorEvent m => ⟨"Error".toList, s.messages ++ [⟨Sender.ai, "Error: ".toList ++ m⟩]⟩

/-- Delivering a sequence of inbound WebSocket messages from the initial
component state. -/
def runPush (ds : List PushMsg) : WsState :=
  ds.foldl (fun s d => wsOnMessage d s) initWs

/-- Outcome of a submission attempt: either a text is sent to the backend,
or the attempt is silently ignored. The source has no other outcome — in
particular no error is ever thrown by the guards. -/
inductive SubmitOutcome where
  | sent (text : List Char)
  | ignored
  deriving DecidableEq

/-- The input-box state seen by `ChatInput.handleSubmit`: the current text
and the `loading` flag (true while a prior submission is pending). -/
structure InputState where
  input : List Char
  loading : Bool
  deriving DecidableEq

/-- `ChatInput.handleSubmit`: `if (!input.trim() || loading) return;` —
a blank input or a pending submission silently blocks the attempt, leaving
all state untouched; otherwise the raw input is sent and the box cleared. -/
def handleSubmit (s : InputState) : SubmitOutcome × InputState :=
  if trimChars s.input = [] ∨ s.loading = true then (.ignored, s)
  else (.sent s.input, ⟨[], s.loading⟩)

/-- The submission guard of `sendMessage` in components/ChatInterface.tsx
(push transport): `if (!input.trim()) return;` — only a blank input blocks;
there is no pending/loading check of any kind. -/
def pushSubmit (input : List Char) : SubmitOutcome :=
  if trimChars input = [] then .ignored else .sent input

/-- Modelled from the spec: the boundary-safe FrameDecoder of §4.1 is not
implemented under src/ (the source splits each chunk independently, which
§9 flags as a latent defect); this is the specified decoder step — append
the chunk to the pending buffer, emit every line-terminated piece, retain
the unterminated remainder. -/
def feedChunk (st : List (List Char) × List Char) (chunk : List Char) :
    List (List Char) × List Char :=
  let parts := splitOnNl (st.2 ++ chunk)
  (st.1 ++ parts.dropLast, parts.getLastD [])

/-- Modelled from the spec: decode a whole chunk sequence with the
boundary-safe FrameDecoder of §4.1; at end of stream a nonempty
unterminated remainder is flushed as one final frame. -/
def decodeFrames (chunks : List (List Char)) : List (List Char) :=
  let st := chunks.foldl feedChunk ([], [])
  st.1 ++ (if st.2 = [] then [] else [st.2])

/-- Modelled from the spec: the corrected pull pipeline — boundary-safe
FrameDecoder (§4.1) followed by the line classifier (§4.2, which the
page.tsx classifier implements verbatim). -/
def specPipeline (chunks : List (List Char)) : List Event :=
  (decodeFrames chunks).filterMap classifyLine

/-- The chunk sequence of spec §8 Scenario A. -/
def scenarioChunks : List (List Char) :=
  ["THINK".toList, "ING: loo".toList, "king\nTOKEN: Hel".toList,
   "lo\nTOKEN: World\n".toList]

/-! ## Helper lemmas -/

/-- A list always starts with itself: `hasLead p (p ++ r)` holds. -/
theorem hasLead_append (p r : List Char) : hasLead p (p ++ r) = true := by
  induction p with
  | nil => rfl
  | cons a ps ih => simp [hasLead, ih]

/-- Splitting on newline peels off a newline-free leading line. -/
theorem splitOnNl_append_nl (l r : List Char) (h : '\n' ∉ l) :
    splitOnNl (l ++ '\n' :: r) = l :: splitOnNl r := by
  induction l with
  | nil => simp [splitOnNl]
  | cons a l ih =>
    have ha : a ≠ '\n' := by intro e; exact h (by simp [e])
    have h' : '\n' ∉ l := by intro m; exact h (by simp [m])
    simp [splitOnNl, ha, ih h']

/-- `dropWhile` leaves a list extended on the right untouched when it already
leaves the list itself untouched (and the list is nonempty, so its head
blocks the drop). -/
theorem dropWhile_append_of_eq_self (p : Char → Bool) (l x : List Char)
    (hne : l ≠ []) (h : l.dropWhile p = l) : (l ++ x).dropWhile p = l ++ x := by
  cases l with
  | nil => exact absurd rfl hne
  | cons c cs =>
    have hc : p c = false := by
      have hcc := List.dropWhile_eq_self_iff.mp h (by simp)
      simpa using hcc
    rw [List.cons_append, List.dropWhile_cons, if_neg (by simp [hc])]

/-- A nonempty list with no leading and no trailing whitespace is fixed by
the embedded JS `trim()`. -/
theorem trimChars_eq_self_of (l : List Char) (hne : l ≠ [])
    (hfront : l.dropWhile isWs = l) (hback : l.reverse.dropWhile isWs = l.reverse) :
    trimChars l = l := by
  unfold trimChars
  rw [hfront, hback, List.reverse_reverse]

/-! ## Claims -/

/-- C1 (code bug): frame-boundary independence fails in the source. The
page.tsx read loop splits every chunk in isolation, so a `"THINKING:"` tag
split across two chunks is never reassembled: the chunks
`["THINK", "ING: hi\n"]` produce no events at all, while the same text as
the single chunk `["THINKING: hi\n"]` produces `Thinking("hi")` — the two
event sequences differ, though the claim (and spec §4.1/§8) requires them
to be equal. Spec §9 explicitly flags the per-chunk splitting as a latent
defect and defines the buffered decoder as the intended behavior; that
boundary-safe decoder (modelled as `specPipeline`) restores the equality on
the same input. -/
theorem c1_boundary_code_bug :
    pageEvents ["THINK".toList, "ING: hi\n".toList] = []
    ∧ pageEvents ["THINKING: hi\n".toList] = [Event.thinking "hi".toList]
    ∧ pageEvents ["THINK".toList, "ING: hi\n".toList]
        ≠ pageEvents ["THINKING: hi\n".toList]
    ∧ specPipeline ["THINK".toList, "ING: hi\n".toList]
        = specPipeline ["THINKING: hi\n".toList] :=
  ⟨by decide, by decide, by decide, by decide⟩

/-- C2 (counterexample): on the Scenario-A chunks the code's pull pipeline
does not produce `[Thinking("looking"), Token("Hello"), Token(" World")]`. -/
theorem c2_scenario_counterexample :
    pageEvents scenarioChunks
      ≠ [Event.thinking "looking".toList, Event.token "Hello".toList,
         Event.token " World".toList] := by decide

/-- C2 (amended): the code's per-chunk pipeline produces
`[Token(" Hel"), Token(" World")]` on the Scenario-A chunks — the
`"THINKING:"` tag split across chunk boundaries is lost (the C1 defect) and
each token keeps the space after the colon. Even the spec's boundary-safe
decoder (§4.1) followed by the classifier yields
`[Thinking("looking"), Token(" Hello"), Token(" World")]`: the first token
is `" Hello"`, not `"Hello"`, because the untrimmed remainder after
`"TOKEN:"` starts with the separating space. -/
theorem c2_scenario_amended :
    pageEvents scenarioChunks
      = [Event.token " Hel".toList, Event.token " World".toList]
    ∧ specPipeline scenarioChunks
      = [Event.thinking "looking".toList, Event.token " Hello".toList,
         Event.token " World".toList] :=
  ⟨by decide, by decide⟩

/-- C3: any frame that starts with `"TOKEN:"` classifies to a token whose
text is the remainder after the tag, completely untrimmed, and the page.tsx
loop appends exactly that remainder to the accumulated response text — so
leading and trailing whitespace of the token text survive verbatim into
`fullResponse`. -/
theorem c3_token_verbatim (rest : List Char) (s : PageState) :
    classifyLine (tokenTag ++ rest) = some (Event.token rest)
    ∧ pageLineStep s (tokenTag ++ rest)
        = ⟨"Responding...".toList, s.fullResponse ++ rest⟩ :=
  ⟨rfl, rfl⟩

/-- C4 (counterexample): submitting `"hi"` while a request is pending
(`loading = true`) does not fail with any error — `ChatInput.handleSubmit`
silently ignores the attempt and leaves the entire state unchanged; the
source has no `AlreadyPendingError` (the outcome type of the guards has no
error alternative at all). -/
theorem c4_pending_counterexample :
    handleSubmit ⟨"hi".toList, true⟩
      = (SubmitOutcome.ignored, ⟨"hi".toList, true⟩) := by decide

/-- C4 (amended): a new submission while one is pending is silently
ignored, not failed: whenever `loading` is set, `ChatInput.handleSubmit`
produces no submission and leaves all state untouched (nothing is queued
and nothing replaces the pending request, but no `AlreadyPendingError` is
raised either — no error exists in the code). The push-transport
`ChatInterface.sendMessage` has no pending guard at all: any input with
nonblank trim is submitted regardless of an in-flight session. -/
theorem c4_pending_amended :
    (∀ s : InputState, s.loading = true → handleSubmit s = (.ignored, s))
    ∧ ∀ input : List Char, ¬(trimChars input = []) →
        pushSubmit input = SubmitOutcome.sent input := by
  constructor
  · intro s h
    unfold handleSubmit
    rw [if_pos (Or.inr h)]
  · intro input h
    unfold pushSubmit
    rw [if_neg h]

/-- C4 (witness): the amended claim at concrete inputs — a pending
submission of `"hi"` is ignored with the state intact, and a nonblank
`"ok"` goes through the push-side guard unconditionally. -/
theorem c4_pending_amended_witness :
    handleSubmit ⟨"hi".toList, true⟩
      = (SubmitOutcome.ignored, ⟨"hi".toList, true⟩)
    ∧ pushSubmit "ok".toList = SubmitOutcome.sent "ok".toList :=
  ⟨c4_pending_amended.1 ⟨"hi".toList, true⟩ rfl,
   c4_pending_amended.2 "ok".toList (by decide)⟩

/-- C5 (counterexample): delivering a further event after a terminal state
is not a no-op: from the error state, a `THINKING` status message moves the
component back to `"Thinking..."` — the state changes. -/
theorem c5_terminal_counterexample :
    wsOnMessage ⟨"THINKING".toList, none, none⟩ ⟨"Error".toList, []⟩
      = ⟨"Thinking...".toList, []⟩
    ∧ wsOnMessage ⟨"THINKING".toList, none, none⟩ ⟨"Error".toList, []⟩
        ≠ ⟨"Error".toList, []⟩ :=
  ⟨by decide, by decide⟩

/-- C5 (amended): the `ws.onmessage` handler never consults the current
state, so terminal states get no special treatment: every message either
has exactly the same effect from any two states with the same message list
(the recognized statuses — in particular a `THINKING` after the error state
re-enters `"Thinking..."`), or is a no-op from every state (an unrecognized
status). Terminal idempotence therefore does not hold; events arriving
after `Done`/`ErrorState` are applied, not ignored. -/
theorem c5_terminal_amended (d : PushMsg) (b₁ b₂ : List Char) (ms : List ChatMsg) :
    wsOnMessage d ⟨b₁, ms⟩ = wsOnMessage d ⟨b₂, ms⟩
    ∨ (wsOnMessage d ⟨b₁, ms⟩ = ⟨b₁, ms⟩ ∧ wsOnMessage d ⟨b₂, ms⟩ = ⟨b₂, ms⟩) := by
  unfold wsOnMessage
  split_ifs <;> first | exact Or.inl rfl | exact Or.inr ⟨rfl, rfl⟩

/-- C6: reducing a `DONE` message carrying a (truthy) final text from any
state appends an assistant bubble whose text is exactly that final text —
the displayed response is wholesale the final text, never a concatenation
with previously streamed text — while a `DONE` without a response leaves
the message list (and hence all displayed text) unchanged and only moves
`brainState` to `"Idle"`. A present-but-empty `response` is falsy in JS, so
it classifies as a `Done` carrying no final text. -/
theorem c6_done_final :
    (∀ (s : WsState) (m : Option (List Char)) (r : List Char), r ≠ [] →
      wsOnMessage ⟨"DONE".toList, m, some r⟩ s
        = ⟨"Idle".toList, s.messages ++ [⟨Sender.ai, r⟩]⟩)
    ∧ (∀ (s : WsState) (m : Option (List Char)),
      wsOnMessage ⟨"DONE".toList, m, none⟩ s = ⟨"Idle".toList, s.messages⟩)
    ∧ ∀ m : Option (List Char),
      classifyPush ⟨"DONE".toList, m, some []⟩ = some (Event.done none) := by
  refine ⟨?_, fun s m => rfl, fun m => rfl⟩
  intro s m r hr
  cases r with
  | nil => exact absurd rfl hr
  | cons c cs => rfl

/-- C6 (witness): a concrete `DONE` with final text `"xyz"` reduced from
the responding state replaces the displayed response with exactly `"xyz"`. -/
theorem c6_done_final_witness :
    wsOnMessage ⟨"DONE".toList, none, some "xyz".toList⟩ ⟨"Responding...".toList, []⟩
      = ⟨"Idle".toList, [⟨Sender.ai, "xyz".toList⟩]⟩ :=
  c6_done_final.1 ⟨"Responding...".toList, []⟩ none "xyz".toList (by decide)

/-- C7: the push message `{status:"ERROR", message:"db down"}` delivered in
the initial state ends the component in the error state whose only message
is the surfaced error bubble `"Error: db down"` — no response text has been
accumulated (the message list holds nothing but the error bubble).
Generally, every push message with status `"ERROR"` classifies to an
`ErrorEvent` carrying the `message` field, and its reduction from any state
sets the error state and appends the surfaced error bubble. -/
theorem c7_push_error :
    wsOnMessage ⟨"ERROR".toList, some "db down".toList, none⟩ initWs
      = ⟨"Error".toList, [⟨Sender.ai, "Error: db down".toList⟩]⟩
    ∧ (∀ d : PushMsg, d.status = "ERROR".toList →
        classifyPush d = some (Event.errorEvent (renderOpt d.message)))
    ∧ ∀ (d : PushMsg) (s : WsState), d.status = "ERROR".toList →
        wsOnMessage d s
          = ⟨"Error".toList,
             s.messages ++ [⟨Sender.ai, "Error: ".toList ++ renderOpt d.message⟩]⟩ := by
  refine ⟨by decide, ?_, ?_⟩
  · intro d h
    simp [classifyPush, h]
  · intro d s h
    simp [wsOnMessage, h]

/-- C7 (witness): the concrete `ERROR` message classifies to
`ErrorEvent("db down")`. -/
theorem c7_push_error_witness :
    classifyPush ⟨"ERROR".toList, some "db down".toList, none⟩
      = some (Event.errorEvent "db down".toList) :=
  c7_push_error.2.1 ⟨"ERROR".toList, some "db down".toList, none⟩ rfl

/-- C8: when the pull stream ends cleanly (the read loop finishes without
an exception), the session ends in the resting success state `"Idle"` — the
same state the push transport enters on an explicit `DONE` — and never in
the error state, and the accumulated response text is exactly what the loop
accumulated: the end-of-stream step changes no text. This is the code's
form of synthesizing a successful completion from clean EOF. -/
theorem c8_clean_eof_done (chunks : List (List Char)) :
    (pageRun chunks).brainState = "Idle".toList
    ∧ (pageRun chunks).fullResponse = (pageLoop chunks).fullResponse
    ∧ (pageRun chunks).brainState ≠ "Error".toList :=
  ⟨rfl, rfl, by
    have h : ("Idle".toList : List Char) ≠ "Error".toList := by decide
    exact h⟩

/-- C9: a pull frame that is blank or starts with neither `"THINKING:"` nor
`"TOKEN:"` is silently discarded: it classifies to no event, and the read
loop's state (brain state and accumulated text) is bitwise unchanged by the
line; likewise the legacy api.ts accumulator ignores any yielded line not
starting with `"TOKEN: "`. No error is raised anywhere — the functions are
total and simply return the previous state. -/
theorem c9_discard_unknown :
    (∀ line : List Char,
      line = [] ∨ (hasLead thinkTag line = false ∧ hasLead tokenTag line = false) →
      classifyLine line = none ∧ ∀ s : PageState, pageLineStep s line = s)
    ∧ ∀ (acc l : List Char), hasLead tokenSpaceTag l = false → sendStep acc l = acc := by
  constructor
  · intro line h
    rcases h with h | ⟨h1, h2⟩
    · subst h; exact ⟨rfl, fun s => rfl⟩
    · by_cases h0 : line = []
      · subst h0; exact ⟨rfl, fun s => rfl⟩
      · refine ⟨?_, fun s => ?_⟩ <;> simp [classifyLine, pageLineStep, h0, h1, h2]
  · intro acc l h
    unfold sendStep
    rw [if_neg (by simp [h])]

/-- C9 (witness): the unknown-tag line `"data: x"` is discarded by both
consumers with all state unchanged. -/
theorem c9_discard_unknown_witness :
    (classifyLine "data: x".toList = none
      ∧ ∀ s : PageState, pageLineStep s "data: x".toList = s)
    ∧ sendStep [] "data: x".toList = [] :=
  ⟨c9_discard_unknown.1 "data: x".toList (Or.inr ⟨by decide, by decide⟩),
   c9_discard_unknown.2 [] "data: x".toList (by decide)⟩

/-- C10 (counterexample): the two pull consumers disagree on the single
well-formed chunk `"TOKEN: a\n"`: the legacy api.ts `sendMessage`
accumulates `"a"` while the page.tsx inline loop accumulates `" a"`. -/
theorem c10_consumers_counterexample :
    sendMessageAnswer ["TOKEN: a\n".toList] = "a".toList
    ∧ (pageRun ["TOKEN: a\n".toList]).fullResponse = " a".toList
    ∧ sendMessageAnswer ["TOKEN: a\n".toList]
        ≠ (pageRun ["TOKEN: a\n".toList]).fullResponse :=
  ⟨by decide, by decide, by decide⟩

/-- C10 (amended): the two pull consumers do not compute the same final
text; they differ by exactly the space following the colon. For any token
body with no newline and no trailing whitespace, on the complete frame
`"TOKEN: " ++ t ++ "\n"` the legacy api.ts consumer (which trims the line
and strips the 7-character `"TOKEN: "` tag) accumulates `t`, while the
page.tsx inline loop (which strips only the 6-character `"TOKEN:"` tag and
never trims) accumulates `' ' :: t` — one extra leading space per token, so
the two results differ whenever at least one token frame is present. -/
theorem c10_consumers_amended (t : List Char) (hnl : '\n' ∉ t) (hne : t ≠ [])
    (hback : t.reverse.dropWhile isWs = t.reverse) :
    sendMessageAnswer [tokenSpaceTag ++ t ++ ['\n']] = t
    ∧ (pageRun [tokenSpaceTag ++ t ++ ['\n']]).fullResponse = ' ' :: t := by
  have hmem : '\n' ∉ tokenSpaceTag ++ t := by
    simp [List.mem_append, hnl, tokenSpaceTag]
  have hsplit : splitOnNl (tokenSpaceTag ++ t ++ ['\n'])
      = [tokenSpaceTag ++ t, []] := by
    have := splitOnNl_append_nl (tokenSpaceTag ++ t) [] hmem
    simpa [splitOnNl] using this
  have htrim : trimChars (tokenSpaceTag ++ t) = tokenSpaceTag ++ t := by
    refine trimChars_eq_self_of _ (by simp [tokenSpaceTag]) ?_ ?_
    · exact dropWhile_append_of_eq_self isWs tokenSpaceTag t (by decide) (by decide)
    · rw [List.reverse_append]
      exact dropWhile_append_of_eq_self isWs t.reverse tokenSpaceTag.reverse
        (by simp [hne]) hback
  have hyield : yieldedLines [tokenSpaceTag ++ t ++ ['\n']] = [tokenSpaceTag ++ t] := by
    unfold yieldedLines
    rw [List.map_cons, List.map_nil, hsplit]
    rw [List.filterMap_cons, List.filterMap_cons, List.filterMap_nil]
    rw [htrim]
    rw [if_neg (by simp [tokenSpaceTag])]
    rfl
  constructor
  · unfold sendMessageAnswer
    rw [hyield]
    have hdrop : (tokenSpaceTag ++ t).drop 7 = t := rfl
    simp [sendStep, hasLead_append, hdrop]
  · show ((splitOnNl (tokenSpaceTag ++ t ++ ['\n'])).foldl pageLineStep initPage).fullResponse
      = ' ' :: t
    rw [hsplit]
    rfl

/-- C10 (witness): the amended claim at the concrete token body `"a"`:
the legacy consumer yields `"a"`, the inline loop `" a"`. -/
theorem c10_consumers_amended_witness :
    sendMessageAnswer [tokenSpaceTag ++ ['a'] ++ ['\n']] = ['a']
    ∧ (pageRun [tokenSpaceTag ++ ['a'] ++ ['\n']]).fullResponse = ' ' :: ['a'] :=
  c10_consumers_amended ['a'] (by decide) (by decide) (by decide)
